import Mathlib

/-!
# Credential lifecycle subsystem — shallow embedding

Shallow embedding of the credential lifecycle subsystem of the Hono server:
the renewal-credential (refresh token) operations of
`src/services/auth-service.ts`, the recovery-token (password reset)
operations of `src/services/password-reset-service.ts`, and the relevant
route handlers of `src/routes/auth.ts`.

Modelling conventions:
- Database state is a `DB` record holding the `users`, `refresh_tokens`
  and `password_reset_tokens` tables as lists of rows, with the column
  shapes of the Prisma schema (`id` TEXT primary key, `token` TEXT unique).
- Clock instants are `Nat` (epoch milliseconds); a JS `Date` comparison
  `a < b` becomes `Nat` `<`.
- Each operation is a function `DB → args → DB × result`, where the first
  component is the store state after the call.  `prisma.$transaction [a, b]`
  is modelled as a single combined state update (its two writes commit as
  one step).  A thrown JS `Error` is an `Except.error` carrying the
  message.  `create` enforces the primary-key and unique-column
  constraints of the schema by failing when an existing row collides.
- `crypto.randomBytes(..).toString('hex')` outputs and generated cuids are
  passed in as explicit parameters (`freshVal`, `newId`), since they are
  produced by the random-source collaborator.
- `bcrypt` is an external collaborator; it is modelled by a deterministic
  injective hash (salting elided): `bcrypt.hash p` is `bcryptHash p` and
  `bcrypt.compare cand stored` checks `stored == bcryptHash cand`.
- `jwt.sign` is modelled as the signed payload itself (`JWTPayload`): the
  claims here concern which subject a credential is minted for, not the
  signature bytes.
-/

/-- Row of the `users` table (fields relevant to the credential subsystem). -/
structure UserRow where
  id : String
  email : String
  username : String
  role : String
  password : String
deriving DecidableEq

/-- Row of the `refresh_tokens` table (Prisma model `RefreshToken`). -/
structure RefreshTokenRow where
  id : String
  token : String
  userId : String
  expiresAt : Nat
  isRevoked : Bool
  deviceInfo : Option String
  ipAddress : Option String
  userAgent : Option String
deriving DecidableEq

/-- Row of the `password_reset_tokens` table (Prisma model `PasswordResetToken`). -/
structure PasswordResetTokenRow where
  id : String
  token : String
  userId : String
  expiresAt : Nat
  used : Bool
deriving DecidableEq

/-- The persistent store: the three tables the credential subsystem touches. -/
structure DB where
  users : List UserRow
  refreshTokens : List RefreshTokenRow
  resetTokens : List PasswordResetTokenRow
deriving DecidableEq

/-- Device metadata attached to a refresh-token row (`RefreshTokenInfo`). -/
structure RefreshTokenInfo where
  deviceInfo : Option String
  ipAddress : Option String
  userAgent : Option String
deriving DecidableEq

/-- Model of the bcrypt collaborator's hash: deterministic and injective
(salting elided, see file header). -/
def bcryptHash (pw : String) : String := "bcrypt$" ++ pw

/-- Model of `bcrypt.compare candidate stored`. -/
def bcryptCompare (candidate stored : String) : Bool :=
  stored == bcryptHash candidate

/-- The signed JWT payload produced by `jwt.sign` in `generateTokenPair`. -/
structure JWTPayload where
  userId : String
  email : String
  username : String
  role : String
  type : String
deriving DecidableEq

/-- `jwt.sign({userId, email, username, role, type: 'access'}, ...)`. -/
def signAccessToken (u : UserRow) : JWTPayload :=
  { userId := u.id, email := u.email, username := u.username,
    role := u.role, type := "access" }

/-- The pair returned by `generateTokenPair` / `refreshAccessToken`. -/
structure TokenPair where
  accessToken : JWTPayload
  refreshToken : String
deriving DecidableEq

/-- `REFRESH_TOKEN_EXPIRES = '7d'`, as milliseconds. -/
def refreshTokenTTLms : Nat := 7 * 24 * 60 * 60 * 1000

/-- Reset-token lifetime: `60 * 60 * 1000` (1 hour). -/
def resetTokenTTLms : Nat := 60 * 60 * 1000

/-- The single error message thrown by `authService.refreshAccessToken`
for an absent, revoked or expired refresh token. -/
def invalidOrExpiredRefresh : String := "Invalid or expired refresh token"

/-- The fresh refresh-token row inserted by `generateTokenPair`. -/
def freshRefreshRow (uid : String) (info : RefreshTokenInfo) (now : Nat)
    (fv ni : String) : RefreshTokenRow :=
  { id := ni, token := fv, userId := uid, expiresAt := now + refreshTokenTTLms,
    isRevoked := false, deviceInfo := info.deviceInfo,
    ipAddress := info.ipAddress, userAgent := info.userAgent }

/-- `authService.generateTokenPair(user, tokenInfo)`: signs an access
token and inserts one fresh refresh-token row for `user.id` expiring in
7 days.  `freshVal` is the `crypto.randomBytes(32).toString('hex')`
output, `newId` the generated row id; `create` fails on a unique-key
collision. -/
def generateTokenPair (db : DB) (user : UserRow) (info : RefreshTokenInfo)
    (now : Nat) (freshVal newId : String) : DB × Except String TokenPair :=
  let accessToken := signAccessToken user
  if db.refreshTokens.any (fun x => x.id == newId || x.token == freshVal) then
    (db, Except.error "Unique constraint failed on refresh_tokens")
  else
    ({ db with refreshTokens := db.refreshTokens ++
        [freshRefreshRow user.id info now freshVal newId] },
     Except.ok { accessToken := accessToken, refreshToken := freshVal })

/-- `authService.refreshAccessToken(refreshTokenValue, tokenInfo)`: look
up the row by token value (with its user); reject if absent, revoked, or
`expiresAt < now`; otherwise generate a new token pair (which inserts the
fresh row) and then set `isRevoked := true` on the presented row. -/
def refreshAccessToken (db : DB) (v : String) (info : RefreshTokenInfo)
    (now : Nat) (freshVal newId : String) : DB × Except String TokenPair :=
  match db.refreshTokens.find? (fun r => r.token == v) with
  | none => (db, Except.error invalidOrExpiredRefresh)
  | some r =>
    if r.isRevoked || decide (r.expiresAt < now) then
      (db, Except.error invalidOrExpiredRefresh)
    else
      match db.users.find? (fun u => u.id == r.userId) with
      | none => (db, Except.error "Refresh token user record missing")
      | some user =>
        match generateTokenPair db user info now freshVal newId with
        | (db1, Except.error e) => (db1, Except.error e)
        | (db1, Except.ok pair) =>
          ({ db1 with refreshTokens := (db1.refreshTokens.map
              (fun x => if x.id == r.id then { x with isRevoked := true } else x)) },
           Except.ok pair)

/-- `authService.revokeAllUserTokens(userId)`: `updateMany` setting
`isRevoked := true` on every refresh-token row of that user. -/
def revokeAllUserTokens (db : DB) (userId : String) : DB :=
  { db with refreshTokens := (db.refreshTokens.map
      (fun x => if x.userId == userId then { x with isRevoked := true } else x)) }

/-- The `where` clause of the `updateMany` in `generateResetToken`: rows
of this user with `used: false` and `expiresAt: { gt: now }`. -/
def liveRow (userId : String) (now : Nat) (r : PasswordResetTokenRow) : Bool :=
  r.userId == userId && !r.used && decide (now < r.expiresAt)

/-- The row update performed by that `updateMany`: set `used := true` on
rows matching `liveRow`, leave the rest unchanged. -/
def markResetRow (userId : String) (now : Nat) (r : PasswordResetTokenRow) :
    PasswordResetTokenRow :=
  if liveRow userId now r then { r with used := true } else r

/-- The fresh reset-token row inserted by `generateResetToken`. -/
def freshResetRow (userId : String) (now : Nat) (freshTok newId : String) :
    PasswordResetTokenRow :=
  { id := newId, token := freshTok, userId := userId,
    expiresAt := now + resetTokenTTLms, used := false }

/-- `passwordResetService.generateResetToken(userId)`: first `updateMany`
marks `used := true` on every row of this user with `used = false` and
`expiresAt > now`; then `create` inserts one fresh row expiring in 1 hour
(failing on a unique-key collision, with the marking already committed). -/
def generateResetToken (db : DB) (userId : String) (now : Nat)
    (freshTok newId : String) : DB × Except String String :=
  let marked := db.resetTokens.map (markResetRow userId now)
  if marked.any (fun r => r.id == newId || r.token == freshTok) then
    ({ db with resetTokens := marked },
     Except.error "Unique constraint failed on password_reset_tokens")
  else
    ({ db with resetTokens := marked ++
        [freshResetRow userId now freshTok newId] },
     Except.ok freshTok)

/-- `passwordResetService.validateResetToken(token)`: `findUnique` by
token value; throw if absent, already used, or `expiresAt < now`.  The
only store access is the read. -/
def validateResetToken (db : DB) (token : String) (now : Nat) :
    DB × Except String PasswordResetTokenRow :=
  match db.resetTokens.find? (fun r => r.token == token) with
  | none => (db, Except.error "Invalid reset token")
  | some r =>
    if r.used then (db, Except.error "Reset token has already been used")
    else if decide (r.expiresAt < now) then
      (db, Except.error "Reset token has expired")
    else (db, Except.ok r)

/-- `passwordResetService.resetPassword(token, newPassword)`: validate the
token, hash the new password, then `prisma.$transaction` updates the user
password and marks the token used — modelled as one combined state step. -/
def resetPassword (db : DB) (token newPassword : String) (now : Nat) :
    DB × Except String PasswordResetTokenRow :=
  match validateResetToken db token now with
  | (db1, Except.error e) => (db1, Except.error e)
  | (db1, Except.ok r) =>
    ({ db1 with
        users := (db1.users.map
          (fun u => if u.id == r.userId
                    then { u with password := bcryptHash newPassword } else u)),
        resetTokens := (db1.resetTokens.map
          (fun x => if x.id == r.id then { x with used := true } else x)) },
     Except.ok r)

/-- `passwordResetService.cleanupExpiredTokens()`: `deleteMany` of rows
that are used or past expiry; returns the number removed. -/
def cleanupResetTokens (db : DB) (now : Nat) : DB × Nat :=
  let keep := db.resetTokens.filter
    (fun r => !(r.used || decide (r.expiresAt < now)))
  ({ db with resetTokens := keep }, db.resetTokens.length - keep.length)

/-- The `POST /change-password` handler body (authenticated path): field
presence and strength checks, fetch the user, `bcrypt.compare` the
current and the new password against the stored hash, then update the
stored hash.  It performs no refresh-token operation. -/
def changePassword (db : DB) (userId currentPassword newPassword : String) :
    DB × Except String Unit :=
  if currentPassword == "" || newPassword == "" then
    (db, Except.error "Current password and new password are required")
  else if newPassword.length < 6 then
    (db, Except.error "New password must be at least 6 characters long")
  else
    match db.users.find? (fun u => u.id == userId) with
    | none => (db, Except.error "User not found")
    | some u =>
      if !(bcryptCompare currentPassword u.password) then
        (db, Except.error "Current password is incorrect")
      else if bcryptCompare newPassword u.password then
        (db, Except.error "New password must be different from current password")
      else
        ({ db with users := (db.users.map
            (fun x => if x.id == userId
                      then { x with password := bcryptHash newPassword } else x)) },
         Except.ok ())

/-- Caller-visible JSON outcome of a handler: HTTP status, `success`
flag, and the `message`/`error` string of the body. -/
structure HandlerResponse where
  status : Nat
  success : Bool
  message : String
deriving DecidableEq

/-- The constant body message of `POST /forgot-password`. -/
def forgotSuccessMessage : String :=
  "If the email exists, a password reset link has been sent"

/-- The `POST /forgot-password` handler: missing email is a 400; an
unknown email returns the success message; otherwise a reset token is
generated and the reset email sent, with any failure of either caught
and the same success response returned.  `notifierFails` models the
email collaborator failing. -/
def forgotPassword (db : DB) (email : String) (now : Nat)
    (freshTok newId : String) (notifierFails : Bool) : DB × HandlerResponse :=
  if email == "" then
    (db, { status := 400, success := false, message := "Email is required" })
  else
    match db.users.find? (fun u => u.email == email) with
    | none =>
      (db, { status := 200, success := true, message := forgotSuccessMessage })
    | some user =>
      match generateResetToken db user.id now freshTok newId with
      | (db1, Except.error _) =>
        (db1, { status := 200, success := true, message := forgotSuccessMessage })
      | (db1, Except.ok _) =>
        if notifierFails then
          (db1, { status := 200, success := true, message := forgotSuccessMessage })
        else
          (db1, { status := 200, success := true, message := forgotSuccessMessage })

/-- The `POST /reset-password` handler: field presence and strength
checks, then `resetPassword`; on failure the thrown message is returned
verbatim as the 400 body's `error`. -/
def resetPasswordHandler (db : DB) (token newPassword : String) (now : Nat) :
    DB × HandlerResponse :=
  if token == "" || newPassword == "" then
    (db, { status := 400, success := false,
           message := "Reset token and new password are required" })
  else if newPassword.length < 6 then
    (db, { status := 400, success := false,
           message := "Password must be at least 6 characters long" })
  else
    match resetPassword db token newPassword now with
    | (db1, Except.error e) =>
      (db1, { status := 400, success := false, message := e })
    | (db1, Except.ok _) =>
      (db1, { status := 200, success := true,
              message := "Password has been reset successfully" })

/-- The `GET /reset-password/validate/:token` handler: on failure the
thrown message is returned verbatim as the 400 body's `error`. -/
def validateResetTokenHandler (db : DB) (token : String) (now : Nat) :
    HandlerResponse :=
  if token == "" then
    { status := 400, success := false, message := "Reset token is required" }
  else
    match (validateResetToken db token now).2 with
    | Except.error e => { status := 400, success := false, message := e }
    | Except.ok _ =>
      { status := 200, success := true, message := "Reset token is valid" }

/-- `Except.isOk` as used in the statements below. -/
def exceptIsOk {ε α : Type} : Except ε α → Bool
  | Except.ok _ => true
  | Except.error _ => false

/-!
## Interleaved execution of concurrent rotate calls

`refreshAccessToken` performs three separate store round-trips: the
validating read (`findUnique`), the insert of the fresh row (inside
`generateTokenPair`), and the revoking update — with no transaction or
compare-and-swap around them.  To examine its behaviour under the
request-parallel scheduling model, each in-flight rotate call is a small
program whose store accesses are the atomic steps, and a schedule is the
interleaving of those steps.
-/

/-- Progress of one in-flight rotate call presenting a shared value:
`start` (about to do the validating read), `validated` (read done,
remembering the presented row's id and its user's id), `created` (fresh
row inserted), `done` (finished, with success flag). -/
inductive RotPhase where
  | start : RotPhase
  | validated : String → String → RotPhase
  | created : String → RotPhase
  | done : Bool → RotPhase
deriving DecidableEq

/-- One in-flight rotate call: its random fresh token value, its
generated row id, and its current phase. -/
structure RotCall where
  freshVal : String
  newId : String
  phase : RotPhase
deriving DecidableEq

/-- Shared store plus the in-flight rotate calls. -/
structure ConcState where
  db : DB
  calls : List RotCall
deriving DecidableEq

/-- Execute the next atomic store access of call `i` (all calls present
the same value `v` at clock `now`).  Each branch performs exactly the
store access the corresponding segment of `refreshAccessToken` performs. -/
def stepRot (v : String) (now : Nat) (s : ConcState) (i : Nat) : ConcState :=
  match s.calls.get? i with
  | none => s
  | some c =>
    match c.phase with
    | RotPhase.start =>
      let phase :=
        match s.db.refreshTokens.find? (fun r => r.token == v) with
        | none => RotPhase.done false
        | some r =>
          if r.isRevoked || decide (r.expiresAt < now) then RotPhase.done false
          else
            match s.db.users.find? (fun u => u.id == r.userId) with
            | none => RotPhase.done false
            | some user => RotPhase.validated r.id user.id
      { s with calls := s.calls.set i { c with phase := phase } }
    | RotPhase.validated rid uid =>
      if s.db.refreshTokens.any (fun x => x.id == c.newId || x.token == c.freshVal) then
        { s with calls := s.calls.set i { c with phase := RotPhase.done false } }
      else
        { db := { s.db with refreshTokens := s.db.refreshTokens ++
            [{ id := c.newId, token := c.freshVal, userId := uid,
               expiresAt := now + refreshTokenTTLms, isRevoked := false,
               deviceInfo := none, ipAddress := none, userAgent := none }] },
          calls := s.calls.set i { c with phase := RotPhase.created rid } }
    | RotPhase.created rid =>
      { db := { s.db with refreshTokens := (s.db.refreshTokens.map
          (fun x => if x.id == rid then { x with isRevoked := true } else x)) },
        calls := s.calls.set i { c with phase := RotPhase.done true } }
    | RotPhase.done _ => s

/-- Run a schedule: the list of call indices in the order their next
atomic store accesses are granted. -/
def runRot (v : String) (now : Nat) (s : ConcState) (sched : List Nat) : ConcState :=
  sched.foldl (stepRot v now) s

/-- Number of rotate calls that finished successfully. -/
def rotSuccessCount (s : ConcState) : Nat :=
  (s.calls.filter (fun c =>
    match c.phase with
    | RotPhase.done b => b
    | _ => false)).length

/-- Sequential (non-interleaved) execution of rotate calls all presenting
the same value `v`: each call runs `refreshAccessToken` to completion
before the next starts; returns the final store and the success count. -/
def runSeqRotates (db : DB) (v : String) :
    List (RefreshTokenInfo × Nat × String × String) → DB × Nat
  | [] => (db, 0)
  | (info, t, fv, ni) :: rest =>
    match refreshAccessToken db v info t fv ni with
    | (db1, Except.ok _) =>
      let out := runSeqRotates db1 v rest
      (out.1, out.2 + 1)
    | (db1, Except.error _) =>
      let out := runSeqRotates db1 v rest
      (out.1, out.2)

/-!
## Reachable store states

`Reach db t` holds when store state `db` is reachable at clock instant
`t` from the empty store.  The constructors cover the operations that
write the `password_reset_tokens` table (`generateResetToken`,
`resetPassword`, `cleanupExpiredTokens`) at the current instant, the
monotone clock, and a frame step subsuming every operation of the system
that leaves that table unchanged (registration, login, refresh, logout,
change-password, the read-only validations, and any refresh-token
maintenance). -/
inductive Reach : DB → Nat → Prop where
  | init : Reach { users := [], refreshTokens := [], resetTokens := [] } 0
  | tick {db : DB} {t t' : Nat} : Reach db t → t ≤ t' → Reach db t'
  | frame {db db' : DB} {t : Nat} :
      Reach db t → db'.resetTokens = db.resetTokens → Reach db' t
  | genReset {db db' : DB} {t : Nat} {uid tok nid : String}
      {res : Except String String} :
      Reach db t → generateResetToken db uid t tok nid = (db', res) →
      Reach db' t
  | resetPw {db db' : DB} {t : Nat} {tok pw : String}
      {res : Except String PasswordResetTokenRow} :
      Reach db t → resetPassword db tok pw t = (db', res) → Reach db' t
  | cleanupReset {db db' : DB} {t n : Nat} :
      Reach db t → cleanupResetTokens db t = (db', n) → Reach db' t

/-- Number of unused reset tokens of subject `uid` whose expiry is
strictly after instant `t`. -/
def liveResetCount (db : DB) (t : Nat) (uid : String) : Nat :=
  (db.resetTokens.filter (liveRow uid t)).length

instance {ε α : Type} [DecidableEq ε] [DecidableEq α] : DecidableEq (Except ε α) :=
  fun a b =>
  match a, b with
  | Except.ok x, Except.ok y =>
    if h : x = y then isTrue (by rw [h])
    else isFalse (by intro hh; cases hh; exact h rfl)
  | Except.error x, Except.error y =>
    if h : x = y then isTrue (by rw [h])
    else isFalse (by intro hh; cases hh; exact h rfl)
  | Except.ok _, Except.error _ => isFalse (by intro hh; cases hh)
  | Except.error _, Except.ok _ => isFalse (by intro hh; cases hh)

/-!
## Concrete store fixtures

Small concrete states used to instantiate the theorems below on
explicit inputs.
-/

/-- Empty device metadata. -/
def wInfo : RefreshTokenInfo :=
  { deviceInfo := none, ipAddress := none, userAgent := none }

/-- A registered user whose stored hash is of password `"oldpass1"`. -/
def wUser : UserRow :=
  { id := "u1", email := "a@x.com", username := "alice", role := "USER",
    password := bcryptHash "oldpass1" }

/-- A valid (unrevoked, unexpired at small clocks) refresh-token row. -/
def wRefreshRow : RefreshTokenRow :=
  { id := "rid1", token := "rt1", userId := "u1", expiresAt := 1000,
    isRevoked := false, deviceInfo := none, ipAddress := none,
    userAgent := none }

/-- A store with one user and one valid refresh token. -/
def wDB : DB := { users := [wUser], refreshTokens := [wRefreshRow],
                  resetTokens := [] }

/-- The store after one successful rotate of `"rt1"` on `wDB`. -/
def wDBrot : DB := (refreshAccessToken wDB "rt1" wInfo 0 "fv1" "nid2").1

/-- The token pair returned by that rotate. -/
def wPair : TokenPair :=
  { accessToken := signAccessToken wUser, refreshToken := "fv1" }

/-- An already-consumed reset-token row. -/
def wUsedResetRow : PasswordResetTokenRow :=
  { id := "pid9", token := "t1", userId := "u1", expiresAt := 10, used := true }

/-- A store containing only the consumed reset token. -/
def wResetMsgDB : DB :=
  { users := [wUser], refreshTokens := [], resetTokens := [wUsedResetRow] }

/-- The empty store. -/
def dbEmpty : DB := { users := [], refreshTokens := [], resetTokens := [] }

/-- Store after issuing reset token `"tokA"` to `"u1"` at instant 0. -/
def wResetDB1 : DB :=
  (generateResetToken dbEmpty "u1" 0 "tokA" "pid1").1

/-- Store after then issuing `"tokB"` exactly when `"tokA"` expires. -/
def wResetDB2 : DB :=
  (generateResetToken wResetDB1 "u1" resetTokenTTLms "tokB" "pid2").1

/-- Store after instead issuing `"tokB"` at instant 10. -/
def wResetDB3 : DB :=
  (generateResetToken wResetDB1 "u1" 10 "tokB" "pid2").1

/-- The `"tokA"` row as created by the first issuance. -/
def wRowA : PasswordResetTokenRow := freshResetRow "u1" 0 "tokA" "pid1"

/-- A valid (unused, unexpired at small clocks) reset-token row. -/
def wResetRowV : PasswordResetTokenRow :=
  { id := "pid3", token := "tokV", userId := "u1", expiresAt := 500,
    used := false }

/-- A store with one user and one valid reset token. -/
def wResetDBV : DB :=
  { users := [wUser], refreshTokens := [], resetTokens := [wResetRowV] }

/-- The store after consuming `"tokV"` with new password `"npw"` at 100. -/
def wResetDBC : DB := (resetPassword wResetDBV "tokV" "npw" 100).1

/-- A refresh-token row expiring exactly at instant 5. -/
def wBoundaryRow : RefreshTokenRow :=
  { id := "rb1", token := "rtb", userId := "u1", expiresAt := 5,
    isRevoked := false, deviceInfo := none, ipAddress := none,
    userAgent := none }

/-- A store for the expiry-boundary checks. -/
def wBoundaryDB : DB :=
  { users := [wUser], refreshTokens := [wBoundaryRow], resetTokens := [] }

/-- Two concurrent rotate calls, both presenting `"rt1"`, not yet started. -/
def wConc0 : ConcState :=
  { db := wDB,
    calls := [{ freshVal := "new1", newId := "cn1", phase := RotPhase.start },
              { freshVal := "new2", newId := "cn2", phase := RotPhase.start }] }

/-!
## List helper lemmas
-/

lemma find?_append_some {α : Type} {p : α → Bool} {l1 : List α} (l2 : List α)
    {a : α} (h : l1.find? p = some a) : (l1 ++ l2).find? p = some a := by
  induction l1 with
  | nil => simp [List.find?] at h
  | cons x xs ih =>
    by_cases hx : p x
    · rw [List.find?_cons_of_pos _ hx] at h
      simpa [List.find?_cons_of_pos _ hx] using h
    · rw [List.find?_cons_of_neg _ (by simpa using hx)] at h
      simpa [List.find?_cons_of_neg _ (by simpa using hx)] using ih h

lemma find?_map_pres {α : Type} (f : α → α) (p : α → Bool)
    (hp : ∀ a, p (f a) = p a) {l : List α} {r : α}
    (h : l.find? p = some r) : (l.map f).find? p = some (f r) := by
  induction l with
  | nil => simp [List.find?] at h
  | cons x xs ih =>
    by_cases hx : p x
    · rw [List.find?_cons_of_pos _ hx] at h
      injection h with h
      subst h
      have hfx : p (f x) = true := by rw [hp]; exact hx
      rw [List.map_cons, List.find?_cons_of_pos _ hfx]
    · rw [List.find?_cons_of_neg _ (by simpa using hx)] at h
      have hfx : ¬ p (f x) = true := by rw [hp]; simpa using hx
      rw [List.map_cons, List.find?_cons_of_neg _ hfx]
      exact ih h

lemma length_filter_mono {α : Type} (p q : α → Bool) (l : List α)
    (h : ∀ a ∈ l, p a = true → q a = true) :
    (l.filter p).length ≤ (l.filter q).length := by
  induction l with
  | nil => simp
  | cons x xs ih =>
    have ih' := ih (fun a ha => h a (List.mem_cons_of_mem _ ha))
    by_cases hpx : p x
    · have hqx := h x (List.mem_cons_self _ _) hpx
      simp only [List.filter_cons, hpx, hqx, if_true, List.length_cons]
      omega
    · by_cases hqx : q x <;>
        simp only [List.filter_cons, hpx, hqx, if_true, if_false,
          Bool.false_eq_true, List.length_cons] <;> omega

lemma length_filter_map_le {α : Type} (f : α → α) (p : α → Bool) (l : List α)
    (h : ∀ a ∈ l, p (f a) = true → p a = true) :
    ((l.map f).filter p).length ≤ (l.filter p).length := by
  induction l with
  | nil => simp
  | cons x xs ih =>
    have ih' := ih (fun a ha => h a (List.mem_cons_of_mem _ ha))
    have hx := h x (List.mem_cons_self _ _)
    by_cases hfx : p (f x)
    · have hpx := hx hfx
      simp only [List.map_cons, List.filter_cons, hfx, hpx, if_true,
        List.length_cons]
      omega
    · by_cases hpx : p x <;>
        simp only [List.map_cons, List.filter_cons, hfx, hpx, if_true, if_false,
          Bool.false_eq_true, List.length_cons] <;> omega

lemma find?_unique_token {l : List PasswordResetTokenRow}
    (hpw : l.Pairwise (fun a b => a.token ≠ b.token)) {r : PasswordResetTokenRow}
    (hr : r ∈ l) : l.find? (fun x => x.token == r.token) = some r := by
  induction l with
  | nil => cases hr
  | cons x xs ih =>
    rcases List.mem_cons.mp hr with heq | hmem
    · subst heq
      exact List.find?_cons_of_pos _ (by simp)
    · have hne : x.token ≠ r.token :=
        (List.pairwise_cons.mp hpw).1 r hmem
      rw [List.find?_cons_of_neg _ (by simpa using hne)]
      exact ih (List.pairwise_cons.mp hpw).2 hmem

/-!
## Refresh-token service lemmas
-/

lemma refresh_success_spec {db : DB} {v : String} {info : RefreshTokenInfo}
    {now : Nat} {fv ni : String} {db' : DB} {pair : TokenPair}
    (h : refreshAccessToken db v info now fv ni = (db', Except.ok pair)) :
    ∃ r user,
      db.refreshTokens.find? (fun x => x.token == v) = some r ∧
      r.isRevoked = false ∧ ¬ r.expiresAt < now ∧
      db.users.find? (fun u => u.id == r.userId) = some user ∧
      user.id = r.userId ∧
      db.refreshTokens.any (fun x => x.id == ni || x.token == fv) = false ∧
      fv ≠ v ∧ ni ≠ r.id ∧
      pair = { accessToken := signAccessToken user, refreshToken := fv } ∧
      db'.users = db.users ∧ db'.resetTokens = db.resetTokens ∧
      db'.refreshTokens =
        (db.refreshTokens.map
          (fun x => if x.id == r.id then { x with isRevoked := true } else x))
          ++ [freshRefreshRow user.id info now fv ni] := by
  unfold refreshAccessToken at h
  cases hfind : db.refreshTokens.find? (fun x => x.token == v) with
  | none => rw [hfind] at h; simp at h
  | some r =>
    rw [hfind] at h
    simp only at h
    by_cases hcond : (r.isRevoked || decide (r.expiresAt < now)) = true
    · rw [if_pos hcond] at h; simp at h
    · rw [if_neg hcond] at h
      cases huser : db.users.find? (fun u => u.id == r.userId) with
      | none => rw [huser] at h; simp at h
      | some user =>
        rw [huser] at h
        simp only at h
        unfold generateTokenPair at h
        by_cases hany : db.refreshTokens.any
            (fun x => x.id == ni || x.token == fv) = true
        · rw [if_pos hany] at h; simp at h
        · rw [if_neg hany] at h
          simp only at h
          have hrev : r.isRevoked = false := by
            cases hb : r.isRevoked <;> simp [hb] at hcond ⊢
          have hexp : ¬ r.expiresAt < now := by
            intro hlt
            exact hcond (by simp [hlt])
          have huid : user.id = r.userId := by
            have := List.find?_some huser
            simpa using this
          have hrmem : r ∈ db.refreshTokens := List.mem_of_find?_eq_some hfind
          have hrtok : r.token = v := by
            have := List.find?_some hfind
            simpa using this
          have hany' : ¬ (r.id == ni || r.token == fv) = true := by
            intro hc
            have hx : db.refreshTokens.any
                (fun x => x.id == ni || x.token == fv) = true :=
              List.any_eq_true.mpr ⟨r, hrmem, hc⟩
            exact hany hx
          have hfvv : fv ≠ v := by
            intro he
            subst he
            exact hany' (by simp [hrtok])
          have hni : ni ≠ r.id := by
            intro he
            subst he
            exact hany' (by simp)
          injection h with h1 h2
          injection h2 with h2
          subst h1
          refine ⟨r, user, rfl, hrev, hexp, huser, huid, by simpa using hany,
            hfvv, hni, h2.symm, rfl, rfl, ?_⟩
          simp only [List.map_append, List.map_cons, List.map_nil]
          congr 1
          simp [freshRefreshRow, hni]

lemma refresh_success_find_revoked {db : DB} {v : String}
    {info : RefreshTokenInfo} {now : Nat} {fv ni : String} {db' : DB}
    {pair : TokenPair}
    (h : refreshAccessToken db v info now fv ni = (db', Except.ok pair)) :
    ∃ r, db.refreshTokens.find? (fun x => x.token == v) = some r ∧
      db'.refreshTokens.find? (fun x => x.token == v) =
        some { r with isRevoked := true } := by
  obtain ⟨r, user, hfind, _, _, _, _, _, _, _, _, _, _, hdb⟩ :=
    refresh_success_spec h
  refine ⟨r, hfind, ?_⟩
  rw [hdb]
  apply find?_append_some
  have hpres : ∀ a : RefreshTokenRow,
      ((if a.id == r.id then { a with isRevoked := true } else a).token == v)
        = (a.token == v) := by
    intro a
    by_cases ha : (a.id == r.id) = true <;> simp [ha]
  have := find?_map_pres
    (fun x : RefreshTokenRow =>
      if x.id == r.id then { x with isRevoked := true } else x)
    (fun x => x.token == v) hpres hfind
  simpa using this

lemma refresh_after_success_fails {db : DB} {v : String}
    {info : RefreshTokenInfo} {now : Nat} {fv ni : String} {db' : DB}
    {pair : TokenPair}
    (h : refreshAccessToken db v info now fv ni = (db', Except.ok pair))
    (info' : RefreshTokenInfo) (now' : Nat) (fv' ni' : String) :
    (refreshAccessToken db' v info' now' fv' ni').2 =
      Except.error invalidOrExpiredRefresh := by
  obtain ⟨r, _, hfind'⟩ := refresh_success_find_revoked h
  unfold refreshAccessToken
  rw [hfind']
  simp

lemma refresh_error_state {db : DB} {v : String} {info : RefreshTokenInfo}
    {now : Nat} {fv ni : String} {e : String}
    (h : (refreshAccessToken db v info now fv ni).2 = Except.error e) :
    (refreshAccessToken db v info now fv ni).1 = db := by
  unfold refreshAccessToken at h ⊢
  cases hfind : db.refreshTokens.find? (fun x => x.token == v) with
  | none => rfl
  | some r =>
    rw [hfind] at h
    simp only at h ⊢
    by_cases hcond : (r.isRevoked || decide (r.expiresAt < now)) = true
    · rw [if_pos hcond]
    · rw [if_neg hcond] at h ⊢
      cases huser : db.users.find? (fun u => u.id == r.userId) with
      | none => rfl
      | some user =>
        rw [huser] at h
        simp only at h ⊢
        unfold generateTokenPair at h ⊢
        by_cases hany : db.refreshTokens.any
            (fun x => x.id == ni || x.token == fv) = true
        · rw [if_pos hany]
        · rw [if_neg hany] at h
          simp at h

lemma runSeq_all_fail (db : DB) (v : String)
    (hfail : ∀ info t fv ni, (refreshAccessToken db v info t fv ni).2 =
      Except.error invalidOrExpiredRefresh) :
    ∀ calls, runSeqRotates db v calls = (db, 0) := by
  intro calls
  induction calls with
  | nil => rfl
  | cons hd tl ih =>
    obtain ⟨info, t, fv, ni⟩ := hd
    have h2 := hfail info t fv ni
    have h1 := refresh_error_state h2
    have hx : refreshAccessToken db v info t fv ni =
        (db, Except.error invalidOrExpiredRefresh) := by
      rw [Prod.ext_iff]
      exact ⟨h1, h2⟩
    unfold runSeqRotates
    rw [hx]
    simpa using ih

/-!
## Reset-token service lemmas
-/

lemma validate_fst (db : DB) (tok : String) (now : Nat) :
    (validateResetToken db tok now).1 = db := by
  unfold validateResetToken
  cases db.resetTokens.find? (fun x => x.token == tok) with
  | none => rfl
  | some r =>
    by_cases hu : r.used = true
    · simp [hu]
    · by_cases he : (decide (r.expiresAt < now)) = true <;> simp [hu, he]

lemma validate_ok_inv {db : DB} {tok : String} {now : Nat}
    {r : PasswordResetTokenRow}
    (h : (validateResetToken db tok now).2 = Except.ok r) :
    db.resetTokens.find? (fun x => x.token == tok) = some r ∧
    r.used = false ∧ ¬ r.expiresAt < now := by
  unfold validateResetToken at h
  cases hfind : db.resetTokens.find? (fun x => x.token == tok) with
  | none => rw [hfind] at h; simp at h
  | some s =>
    rw [hfind] at h
    simp only at h
    by_cases hu : s.used = true
    · rw [if_pos hu] at h; simp at h
    · rw [if_neg hu] at h
      by_cases he : (decide (s.expiresAt < now)) = true
      · rw [if_pos he] at h; simp at h
      · rw [if_neg he] at h
        simp only at h
        injection h with h
        subst h
        exact ⟨rfl, by simpa using hu, by simpa using he⟩

lemma validate_used {db : DB} {tok : String} (now : Nat)
    {s : PasswordResetTokenRow}
    (hfind : db.resetTokens.find? (fun x => x.token == tok) = some s)
    (hu : s.used = true) :
    validateResetToken db tok now =
      (db, Except.error "Reset token has already been used") := by
  unfold validateResetToken
  rw [hfind]
  simp [hu]

lemma resetPassword_validate_error {db : DB} {tok : String} (pw : String)
    {now : Nat} {e : String}
    (h : validateResetToken db tok now = (db, Except.error e)) :
    resetPassword db tok pw now = (db, Except.error e) := by
  unfold resetPassword
  rw [h]

lemma resetPassword_error_state {db db' : DB} {tok pw : String} {now : Nat}
    {e : String} (h : resetPassword db tok pw now = (db', Except.error e)) :
    db' = db := by
  unfold resetPassword at h
  rcases hv : validateResetToken db tok now with ⟨db1, res⟩
  rw [hv] at h
  have hdb1 : db1 = db := by
    have hfst := validate_fst db tok now
    rw [hv] at hfst
    exact hfst
  subst hdb1
  cases res with
  | error e0 =>
    simp only at h
    injection h with h1 h2
    exact h1.symm
  | ok s => simp at h

lemma resetPassword_success_spec {db : DB} {tok pw : String} {now : Nat}
    {db' : DB} {r : PasswordResetTokenRow}
    (h : resetPassword db tok pw now = (db', Except.ok r)) :
    db.resetTokens.find? (fun x => x.token == tok) = some r ∧
    r.used = false ∧ ¬ r.expiresAt < now ∧
    db' = { db with
      users := (db.users.map
        (fun u => if u.id == r.userId
                  then { u with password := bcryptHash pw } else u)),
      resetTokens := (db.resetTokens.map
        (fun x => if x.id == r.id then { x with used := true } else x)) } := by
  unfold resetPassword at h
  rcases hv : validateResetToken db tok now with ⟨db1, res⟩
  rw [hv] at h
  have hdb1 : db1 = db := by
    have hfst := validate_fst db tok now
    rw [hv] at hfst
    exact hfst
  rw [hdb1] at hv h
  cases res with
  | error e0 => simp at h
  | ok s =>
    simp only at h
    injection h with h1 h2
    injection h2 with h2
    have hiv : (validateResetToken db tok now).2 = Except.ok s := by
      rw [hv]
    rw [h2] at hiv h1
    obtain ⟨hfind, hu, he⟩ := validate_ok_inv hiv
    exact ⟨hfind, hu, he, h1.symm⟩

/-!
## Recovery-token invariant lemmas
-/

lemma mark_kills_live (uid : String) (t : Nat) (r : PasswordResetTokenRow) :
    liveRow uid t (markResetRow uid t r) = false := by
  unfold markResetRow
  by_cases hc : liveRow uid t r = true
  · rw [if_pos hc]
    simp [liveRow]
  · rw [if_neg hc]
    simpa using hc

lemma live_of_mark_live (uid uid' : String) (t : Nat) (r : PasswordResetTokenRow)
    (h : liveRow uid' t (markResetRow uid t r) = true) : liveRow uid' t r = true := by
  unfold markResetRow at h
  by_cases hc : liveRow uid t r = true
  · rw [if_pos hc] at h
    simp [liveRow] at h
  · rwa [if_neg hc] at h

lemma liveResetCount_tick (db : DB) {t t' : Nat} (h : t ≤ t') (uid : String) :
    liveResetCount db t' uid ≤ liveResetCount db t uid := by
  unfold liveResetCount
  apply length_filter_mono
  intro a _ ha
  unfold liveRow at ha ⊢
  simp only [Bool.and_eq_true, Bool.not_eq_true', decide_eq_true_eq] at ha
  simp only [Bool.and_eq_true, Bool.not_eq_true', decide_eq_true_eq]
  exact ⟨ha.1, lt_of_le_of_lt h ha.2⟩

lemma genReset_preserves_live {db db' : DB} {uid tok nid : String} {t : Nat}
    {res : Except String String}
    (h : generateResetToken db uid t tok nid = (db', res)) (uid' : String)
    (hle : liveResetCount db t uid' ≤ 1) : liveResetCount db' t uid' ≤ 1 := by
  unfold generateResetToken at h
  have hstep : ((db.resetTokens.map (markResetRow uid t)).filter
      (liveRow uid' t)).length ≤ liveResetCount db t uid' :=
    length_filter_map_le _ _ _ (fun a _ ha => live_of_mark_live uid uid' t a ha)
  by_cases hany : ((db.resetTokens.map (markResetRow uid t)).any
      (fun r => r.id == nid || r.token == tok)) = true
  · rw [if_pos hany] at h
    injection h with h1 _
    rw [← h1]
    unfold liveResetCount
    exact le_trans hstep hle
  · rw [if_neg hany] at h
    injection h with h1 _
    rw [← h1]
    unfold liveResetCount
    rw [List.filter_append, List.length_append]
    by_cases huid : uid' = uid
    · subst huid
      have hz : (db.resetTokens.map (markResetRow uid' t)).filter
          (liveRow uid' t) = [] := by
        apply List.filter_eq_nil_iff.mpr
        intro a ha
        obtain ⟨r0, _, hr0⟩ := List.mem_map.mp ha
        rw [← hr0]
        simp [mark_kills_live]
      rw [hz]
      simp only [List.length_nil, Nat.zero_add]
      exact le_trans (List.length_filter_le _ _) (by simp)
    · have hne : uid ≠ uid' := fun he => huid he.symm
      have hnew : liveRow uid' t (freshResetRow uid t tok nid) = false := by
        simp [liveRow, freshResetRow, hne]
      have hnil : List.filter (liveRow uid' t)
          [freshResetRow uid t tok nid] = [] := by
        simp [List.filter, hnew]
      rw [hnil]
      simpa using le_trans hstep hle

lemma resetPw_preserves_live {db db' : DB} {tok pw : String} {t : Nat}
    {res : Except String PasswordResetTokenRow}
    (h : resetPassword db tok pw t = (db', res)) (uid' : String)
    (hle : liveResetCount db t uid' ≤ 1) : liveResetCount db' t uid' ≤ 1 := by
  cases res with
  | error e =>
    rw [resetPassword_error_state h]
    exact hle
  | ok r =>
    obtain ⟨_, _, _, hdb⟩ := resetPassword_success_spec h
    rw [hdb]
    unfold liveResetCount
    refine le_trans ?_ hle
    apply length_filter_map_le
    intro a _ ha
    by_cases hid : (a.id == r.id) = true
    · rw [if_pos hid] at ha
      simp [liveRow] at ha
    · rwa [if_neg hid] at ha

lemma cleanup_preserves_live {db db' : DB} {t n : Nat}
    (h : cleanupResetTokens db t = (db', n)) (uid' : String)
    (hle : liveResetCount db t uid' ≤ 1) : liveResetCount db' t uid' ≤ 1 := by
  unfold cleanupResetTokens at h
  injection h with h1 _
  rw [← h1]
  unfold liveResetCount
  refine le_trans ?_ hle
  exact List.Sublist.length_le (List.Sublist.filter _ (List.filter_sublist _))

lemma reach_live_bound {db : DB} {t : Nat} (h : Reach db t) :
    ∀ uid, liveResetCount db t uid ≤ 1 := by
  induction h with
  | init => intro uid; simp [liveResetCount]
  | tick hr hle ih =>
    intro uid
    exact le_trans (liveResetCount_tick _ hle uid) (ih uid)
  | frame hr heq ih =>
    intro uid
    unfold liveResetCount
    rw [heq]
    exact ih uid
  | genReset hr hgen ih =>
    intro uid
    exact genReset_preserves_live hgen uid (ih uid)
  | resetPw hr hrp ih =>
    intro uid
    exact resetPw_preserves_live hrp uid (ih uid)
  | cleanupReset hr hcl ih =>
    intro uid
    exact cleanup_preserves_live hcl uid (ih uid)

lemma genReset_old_token_fails {db db' : DB} {uid tok nid s : String} {t : Nat}
    (hpw : db.resetTokens.Pairwise (fun a b => a.token ≠ b.token))
    (h : generateResetToken db uid t tok nid = (db', Except.ok s))
    {r : PasswordResetTokenRow} (hr : r ∈ db.resetTokens) (hruid : r.userId = uid)
    {t' : Nat} (ht : t < t') :
    ∃ e, (validateResetToken db' r.token t').2 = Except.error e := by
  unfold generateResetToken at h
  by_cases hany : ((db.resetTokens.map (markResetRow uid t)).any
      (fun x => x.id == nid || x.token == tok)) = true
  · rw [if_pos hany] at h
    simp at h
  · rw [if_neg hany] at h
    injection h with h1 _
    have hfind : db.resetTokens.find? (fun x => x.token == r.token) = some r :=
      find?_unique_token hpw hr
    have hpres : ∀ a : PasswordResetTokenRow,
        ((markResetRow uid t a).token == r.token) = (a.token == r.token) := by
      intro a
      unfold markResetRow
      by_cases hc : liveRow uid t a = true <;> simp [hc]
    have hfindM : (db.resetTokens.map (markResetRow uid t)).find?
        (fun x => x.token == r.token) = some (markResetRow uid t r) :=
      find?_map_pres _ _ hpres hfind
    have hfind' : db'.resetTokens.find? (fun x => x.token == r.token) =
        some (markResetRow uid t r) := by
      rw [← h1]
      exact find?_append_some _ hfindM
    unfold validateResetToken
    rw [hfind']
    unfold markResetRow
    by_cases hc : liveRow uid t r = true
    · rw [if_pos hc]
      exact ⟨"Reset token has already been used", by simp⟩
    · rw [if_neg hc]
      by_cases hu : r.used = true
      · exact ⟨"Reset token has already been used", by simp [hu]⟩
      · have hexp : ¬ t < r.expiresAt := by
          unfold liveRow at hc
          simp only [Bool.and_eq_true, Bool.not_eq_true', decide_eq_true_eq,
            beq_iff_eq] at hc
          intro hlt
          exact hc ⟨⟨hruid, by simpa using hu⟩, hlt⟩
        have hexp' : r.expiresAt < t' := lt_of_le_of_lt (Nat.le_of_not_lt hexp) ht
        exact ⟨"Reset token has expired", by simp [hu, hexp']⟩

/-!
## Claim theorems
-/

lemma wDBrot_eq :
    refreshAccessToken wDB "rt1" wInfo 0 "fv1" "nid2" =
      (wDBrot, Except.ok wPair) := by decide

/-- C1: for every renewal credential value, after one successful rotate
(refresh) call presenting that value, any second rotate call presenting
the same value fails with the invalid-or-expired-renewal error, for every
state in which the first call succeeded — the first use revoked the
presented row. -/
theorem rotate_second_use_fails {db : DB} {v : String}
    {info : RefreshTokenInfo} {now : Nat} {fv ni : String} {db' : DB}
    {pair : TokenPair}
    (h : refreshAccessToken db v info now fv ni = (db', Except.ok pair))
    (info' : RefreshTokenInfo) (now' : Nat) (fv' ni' : String) :
    (refreshAccessToken db' v info' now' fv' ni').2 =
      Except.error invalidOrExpiredRefresh :=
  refresh_after_success_fails h info' now' fv' ni'

theorem rotate_second_use_fails_witness :
    (refreshAccessToken wDBrot "rt1" wInfo 5 "fv9" "nid9").2 =
      Except.error invalidOrExpiredRefresh :=
  rotate_second_use_fails wDBrot_eq wInfo 5 "fv9" "nid9"

/-- C7: on every successful rotate call, the presented renewal row ends
revoked, exactly one fresh renewal row is created and owned by the same
subject as the presented row, with a new opaque value different from the
presented value, and a new access credential is minted for that subject. -/
theorem rotate_success_effects {db : DB} {v : String}
    {info : RefreshTokenInfo} {now : Nat} {fv ni : String} {db' : DB}
    {pair : TokenPair}
    (h : refreshAccessToken db v info now fv ni = (db', Except.ok pair)) :
    ∃ (r : RefreshTokenRow) (user : UserRow),
      db.refreshTokens.find? (fun x => x.token == v) = some r ∧
      user.id = r.userId ∧
      db'.refreshTokens =
        (db.refreshTokens.map (fun x => if x.id == r.id
          then { x with isRevoked := true } else x))
          ++ [freshRefreshRow user.id info now fv ni] ∧
      db'.refreshTokens.find? (fun x => x.token == v) =
        some { r with isRevoked := true } ∧
      db'.refreshTokens.length = db.refreshTokens.length + 1 ∧
      (freshRefreshRow user.id info now fv ni).userId = r.userId ∧
      (freshRefreshRow user.id info now fv ni).isRevoked = false ∧
      fv ≠ v ∧ pair.refreshToken = fv ∧
      pair.accessToken.userId = r.userId ∧
      pair.accessToken.type = "access" := by
  obtain ⟨r, user, hfind, hrev, hexp, huser, huid, hany, hfvv, hni, hpair,
    hus, hrs, hdb⟩ := refresh_success_spec h
  obtain ⟨r2, hfind2, hfind2'⟩ := refresh_success_find_revoked h
  rw [hfind] at hfind2
  injection hfind2 with hr2
  rw [← hr2] at hfind2'
  refine ⟨r, user, hfind, huid, hdb, hfind2', ?_, ?_, rfl, hfvv, ?_, ?_, ?_⟩
  · rw [hdb]
    simp [List.length_append, List.length_map]
  · simp [freshRefreshRow, huid]
  · rw [hpair]
  · rw [hpair]
    simp [signAccessToken, huid]
  · rw [hpair]
    rfl

theorem rotate_success_effects_witness :
    ∃ (r : RefreshTokenRow) (user : UserRow),
      wDB.refreshTokens.find? (fun x => x.token == "rt1") = some r ∧
      user.id = r.userId ∧
      wDBrot.refreshTokens =
        (wDB.refreshTokens.map (fun x => if x.id == r.id
          then { x with isRevoked := true } else x))
          ++ [freshRefreshRow user.id wInfo 0 "fv1" "nid2"] ∧
      wDBrot.refreshTokens.find? (fun x => x.token == "rt1") =
        some { r with isRevoked := true } ∧
      wDBrot.refreshTokens.length = wDB.refreshTokens.length + 1 ∧
      (freshRefreshRow user.id wInfo 0 "fv1" "nid2").userId = r.userId ∧
      (freshRefreshRow user.id wInfo 0 "fv1" "nid2").isRevoked = false ∧
      "fv1" ≠ "rt1" ∧ wPair.refreshToken = "fv1" ∧
      wPair.accessToken.userId = r.userId ∧
      wPair.accessToken.type = "access" :=
  rotate_success_effects wDBrot_eq

/-- C8 counterexample: an interleaved schedule of two simultaneous rotate
calls presenting the same renewal value in which both validating reads
run before either revoking write yields two successes, not one — the
read, insert and revoke of `refreshAccessToken` are separate
non-transactional store accesses. -/
theorem concurrent_rotate_counterexample :
    rotSuccessCount (runRot "rt1" 0 wConc0 [0, 1, 0, 0, 1, 1]) = 2 := by
  decide

/-- C8 (amended): rotate calls presenting the same renewal value executed
sequentially (each call's store accesses complete before the next call
starts), the first of which succeeds, yield exactly one success; under
interleaved scheduling the counterexample schedule yields two. -/
theorem rotate_sequential_exactly_one {db : DB} {v : String}
    {info : RefreshTokenInfo} {t : Nat} {fv ni : String} {db' : DB}
    {pair : TokenPair}
    (h : refreshAccessToken db v info t fv ni = (db', Except.ok pair))
    (rest : List (RefreshTokenInfo × Nat × String × String)) :
    (runSeqRotates db v ((info, t, fv, ni) :: rest)).2 = 1 := by
  unfold runSeqRotates
  rw [h]
  have hfail := refresh_after_success_fails h
  have hrun := runSeq_all_fail db' v (fun i t2 f n => hfail i t2 f n) rest
  simp [hrun]

theorem rotate_sequential_exactly_one_witness :
    (runSeqRotates wDB "rt1"
      [(wInfo, 0, "fv1", "nid2"), (wInfo, 3, "fv4", "nid4"),
       (wInfo, 7, "fv5", "nid5")]).2 = 1 :=
  rotate_sequential_exactly_one wDBrot_eq
    [(wInfo, 3, "fv4", "nid4"), (wInfo, 7, "fv5", "nid5")]

/-- C2 counterexample: a state where `changeSecret` succeeds and a
renewal credential issued to the same subject before the call still
rotates successfully afterwards — the change-password handler never
touches the refresh-token table. -/
theorem changeSecret_revocation_counterexample :
    (changePassword wDB "u1" "oldpass1" "newpass1").2 = Except.ok () ∧
    exceptIsOk (refreshAccessToken
      (changePassword wDB "u1" "oldpass1" "newpass1").1
      "rt1" wInfo 0 "fv1" "nid2").2 = true := by
  exact ⟨by decide, by decide⟩

/-- C2 (amended): a changeSecret (change-password) call — successful or
not — leaves the renewal-credential store exactly as it was: it never
calls `revokeAllForSubject`, so renewal credentials issued before the
call are not revoked and still rotate; revocation of all of a subject's
renewal credentials happens only at logout. -/
theorem changeSecret_leaves_renewals :
    ∀ (db : DB) (uid cur new : String),
      ((changePassword db uid cur new).1).refreshTokens = db.refreshTokens := by
  intro db uid cur new
  unfold changePassword
  repeat' split
  all_goals rfl

/-- C9: `validate` on a recovery token is read-only: whatever the input
token value and however the call resolves (success, absent, consumed, or
expired), the store state after the call equals the state before it. -/
theorem validate_read_only :
    ∀ (db : DB) (tok : String) (now : Nat),
      (validateResetToken db tok now).1 = db :=
  validate_fst

/-- C4: a successful `consume` (resetPassword) applies the new secret to
the subject record and marks the token used in one atomic transaction
step, a second `consume` with the same value fails with the
already-consumed error and leaves the store untouched (so the secret is
changed exactly once), and a failing `consume` changes nothing. -/
theorem consume_atomic_single_use :
    (∀ (db : DB) (tok pw : String) (now : Nat) (db' : DB)
        (r : PasswordResetTokenRow),
      resetPassword db tok pw now = (db', Except.ok r) →
      db'.users = (db.users.map (fun u => if u.id == r.userId
        then { u with password := bcryptHash pw } else u)) ∧
      db'.resetTokens = (db.resetTokens.map (fun x => if x.id == r.id
        then { x with used := true } else x)) ∧
      ∀ pw' now', resetPassword db' tok pw' now' =
        (db', Except.error "Reset token has already been used")) ∧
    (∀ (db : DB) (tok pw : String) (now : Nat) (db' : DB) (e : String),
      resetPassword db tok pw now = (db', Except.error e) → db' = db) := by
  constructor
  · intro db tok pw now db' r h
    obtain ⟨hfind, hu, he, hdb⟩ := resetPassword_success_spec h
    refine ⟨by rw [hdb], by rw [hdb], ?_⟩
    intro pw' now'
    have hpres : ∀ a : PasswordResetTokenRow,
        ((if a.id == r.id then { a with used := true } else a).token == tok)
          = (a.token == tok) := by
      intro a
      by_cases hid : (a.id == r.id) = true <;> simp [hid]
    have hfind' : db'.resetTokens.find? (fun x => x.token == tok) =
        some { r with used := true } := by
      rw [hdb]
      have hm := find?_map_pres
        (fun x : PasswordResetTokenRow =>
          if x.id == r.id then { x with used := true } else x)
        (fun x => x.token == tok) hpres hfind
      simpa using hm
    have hval := validate_used now' hfind' (by rfl)
    exact resetPassword_validate_error pw' hval
  · intro db tok pw now db' e h
    exact resetPassword_error_state h

theorem consume_atomic_single_use_witness :
    wResetDBC.users = (wResetDBV.users.map
      (fun u => if u.id == wResetRowV.userId
                then { u with password := bcryptHash "npw" } else u)) ∧
    wResetDBC.resetTokens = (wResetDBV.resetTokens.map
      (fun x => if x.id == wResetRowV.id
                then { x with used := true } else x)) ∧
    resetPassword wResetDBC "tokV" "other" 200 =
      (wResetDBC, Except.error "Reset token has already been used") := by
  obtain ⟨h1, h2, h3⟩ := consume_atomic_single_use.1 wResetDBV "tokV" "npw"
    100 wResetDBC wResetRowV (by decide)
  exact ⟨h1, h2, h3 "other" 200⟩

/-- C6: for every submitted contact address, the recovery-token issuance
endpoint reports the same success response to the caller — status 200,
`success: true`, and the fixed message — whether or not a subject with
that address exists and whether or not the notifier dispatch fails. -/
theorem recovery_issuance_uniform_success :
    ∀ (db : DB) (email : String) (now : Nat) (freshTok newId : String)
      (notifierFails : Bool), email ≠ "" →
      (forgotPassword db email now freshTok newId notifierFails).2 =
        { status := 200, success := true, message := forgotSuccessMessage } := by
  intro db email now ft ni nf hne
  unfold forgotPassword
  rw [if_neg (by simpa using hne)]
  cases hfind : db.users.find? (fun u => u.email == email) with
  | none => rfl
  | some user =>
    simp only
    rcases hg : generateResetToken db user.id now ft ni with ⟨db1, res⟩
    cases res with
    | error e => rfl
    | ok s => cases nf <;> rfl

theorem recovery_issuance_uniform_success_witness :
    (forgotPassword wDB "a@x.com" 0 "tokZ" "pidZ" true).2 =
      { status := 200, success := true, message := forgotSuccessMessage } ∧
    (forgotPassword wDB "nobody@x.com" 0 "tokZ" "pidZ" false).2 =
      { status := 200, success := true, message := forgotSuccessMessage } :=
  ⟨recovery_issuance_uniform_success wDB "a@x.com" 0 "tokZ" "pidZ" true
     (by decide),
   recovery_issuance_uniform_success wDB "nobody@x.com" 0 "tokZ" "pidZ" false
     (by decide)⟩

/-- C10: expiry is exclusive at the boundary for both store-backed token
kinds: a refresh token or reset token found unrevoked/unused whose
`expiresAt` exactly equals the current instant is still accepted, and the
expired rejection fires only when `expiresAt` is strictly earlier than
now. -/
theorem expiry_boundary_exclusive :
    (∀ (db : DB) (v : String) (info : RefreshTokenInfo) (now : Nat)
        (fv ni : String) (r : RefreshTokenRow) (user : UserRow),
      db.refreshTokens.find? (fun x => x.token == v) = some r →
      r.isRevoked = false → r.expiresAt = now →
      db.users.find? (fun u => u.id == r.userId) = some user →
      db.refreshTokens.any (fun x => x.id == ni || x.token == fv) = false →
      exceptIsOk (refreshAccessToken db v info now fv ni).2 = true) ∧
    (∀ (db : DB) (v : String) (info : RefreshTokenInfo) (now : Nat)
        (fv ni : String) (r : RefreshTokenRow),
      db.refreshTokens.find? (fun x => x.token == v) = some r →
      r.expiresAt < now →
      (refreshAccessToken db v info now fv ni).2 =
        Except.error invalidOrExpiredRefresh) ∧
    (∀ (db : DB) (tok : String) (now : Nat) (r : PasswordResetTokenRow),
      db.resetTokens.find? (fun x => x.token == tok) = some r →
      r.used = false → r.expiresAt = now →
      (validateResetToken db tok now).2 = Except.ok r) ∧
    (∀ (db : DB) (tok : String) (now : Nat) (r : PasswordResetTokenRow),
      db.resetTokens.find? (fun x => x.token == tok) = some r →
      r.used = false → r.expiresAt < now →
      (validateResetToken db tok now).2 =
        Except.error "Reset token has expired") := by
  refine ⟨?_, ?_, ?_, ?_⟩
  · intro db v info now fv ni r user hfind hrev hexp huser hany
    unfold refreshAccessToken
    rw [hfind]
    simp only
    rw [if_neg (by simp [hrev, hexp])]
    rw [huser]
    simp only
    unfold generateTokenPair
    rw [if_neg (by simp [hany])]
    rfl
  · intro db v info now fv ni r hfind hlt
    unfold refreshAccessToken
    rw [hfind]
    simp only
    rw [if_pos (by simp [hlt])]
  · intro db tok now r hfind hu hexp
    unfold validateResetToken
    rw [hfind]
    simp only
    rw [if_neg (by simp [hu]), if_neg (by simp [hexp])]
  · intro db tok now r hfind hu hlt
    unfold validateResetToken
    rw [hfind]
    simp only
    rw [if_neg (by simp [hu]), if_pos (by simp [hlt])]

theorem expiry_boundary_exclusive_witness :
    exceptIsOk (refreshAccessToken wBoundaryDB "rtb" wInfo 5 "fvb" "nib").2
      = true ∧
    (refreshAccessToken wBoundaryDB "rtb" wInfo 6 "fvb" "nib").2 =
      Except.error invalidOrExpiredRefresh ∧
    (validateResetToken wResetDBV "tokV" 500).2 = Except.ok wResetRowV ∧
    (validateResetToken wResetDBV "tokV" 501).2 =
      Except.error "Reset token has expired" :=
  ⟨expiry_boundary_exclusive.1 wBoundaryDB "rtb" wInfo 5 "fvb" "nib"
     wBoundaryRow wUser (by decide) (by decide) (by decide) (by decide)
     (by decide),
   expiry_boundary_exclusive.2.1 wBoundaryDB "rtb" wInfo 6 "fvb" "nib"
     wBoundaryRow (by decide) (by decide),
   expiry_boundary_exclusive.2.2.1 wResetDBV "tokV" 500 wResetRowV
     (by decide) (by decide) (by decide),
   expiry_boundary_exclusive.2.2.2 wResetDBV "tokV" 501 wResetRowV
     (by decide) (by decide) (by decide)⟩

/-- C5 counterexample: two failing recovery-token validations with
different internal causes (token absent vs. already consumed) produce
different caller-visible responses — the handler surfaces the thrown
message verbatim, so the error does reveal which internal reason
applied. -/
theorem error_reason_exposure_counterexample :
    (validateResetTokenHandler wResetMsgDB "t2" 0).success = false ∧
    (validateResetTokenHandler wResetMsgDB "t1" 0).success = false ∧
    (validateResetTokenHandler wResetMsgDB "t2" 0).message ≠
      (validateResetTokenHandler wResetMsgDB "t1" 0).message := by
  exact ⟨by decide, by decide, by decide⟩

/-- C5 (amended): renewal rotate failures are indistinguishable — absent,
revoked and expired all yield the one `invalidOrExpiredRefresh` error —
but recovery-token validate and consume failures reveal the internal
reason: the handlers surface the distinct messages for the NotFound,
AlreadyConsumed and Expired causes verbatim to the caller. -/
theorem error_reason_exposure :
    (∀ (db : DB) (v : String) (info : RefreshTokenInfo) (now : Nat)
        (fv ni : String),
      Option.all (fun r => r.isRevoked || decide (r.expiresAt < now))
          (db.refreshTokens.find? (fun x => x.token == v)) = true →
      (refreshAccessToken db v info now fv ni).2 =
        Except.error invalidOrExpiredRefresh) ∧
    (∀ (db : DB) (tok : String) (now : Nat), tok ≠ "" →
      (db.resetTokens.find? (fun x => x.token == tok) = none →
        validateResetTokenHandler db tok now =
          { status := 400, success := false,
            message := "Invalid reset token" }) ∧
      (∀ r : PasswordResetTokenRow,
        db.resetTokens.find? (fun x => x.token == tok) = some r →
        r.used = true →
        validateResetTokenHandler db tok now =
          { status := 400, success := false,
            message := "Reset token has already been used" }) ∧
      (∀ r : PasswordResetTokenRow,
        db.resetTokens.find? (fun x => x.token == tok) = some r →
        r.used = false → r.expiresAt < now →
        validateResetTokenHandler db tok now =
          { status := 400, success := false,
            message := "Reset token has expired" })) ∧
    (∀ (db db1 : DB) (tok pw : String) (now : Nat) (e : String),
      tok ≠ "" → pw ≠ "" → ¬ pw.length < 6 →
      resetPassword db tok pw now = (db1, Except.error e) →
      resetPasswordHandler db tok pw now =
        (db1, { status := 400, success := false, message := e })) := by
  refine ⟨?_, ?_, ?_⟩
  · intro db v info now fv ni hall
    unfold refreshAccessToken
    cases hfind : db.refreshTokens.find? (fun x => x.token == v) with
    | none => rfl
    | some r =>
      rw [hfind] at hall
      simp only
      rw [if_pos (by simpa using hall)]
  · intro db tok now htok
    have htok' : (tok == "") = false := by simpa using htok
    refine ⟨?_, ?_, ?_⟩
    · intro hnone
      unfold validateResetTokenHandler validateResetToken
      rw [if_neg (by simp [htok'])]
      rw [hnone]
    · intro r hfind hu
      unfold validateResetTokenHandler validateResetToken
      rw [if_neg (by simp [htok'])]
      rw [hfind]
      simp only
      rw [if_pos hu]
    · intro r hfind hu hlt
      unfold validateResetTokenHandler validateResetToken
      rw [if_neg (by simp [htok'])]
      rw [hfind]
      simp only
      rw [if_neg (by simp [hu]), if_pos (by simp [hlt])]
  · intro db db1 tok pw now e htok hpw hlen hreset
    unfold resetPasswordHandler
    rw [if_neg (by simp [htok, hpw])]
    rw [if_neg hlen]
    rw [hreset]

theorem error_reason_exposure_witness :
    (refreshAccessToken wDBrot "rt1" wInfo 0 "fvW" "nidW").2 =
      Except.error invalidOrExpiredRefresh ∧
    validateResetTokenHandler wResetMsgDB "t2" 3 =
      { status := 400, success := false,
        message := "Invalid reset token" } ∧
    validateResetTokenHandler wResetMsgDB "t1" 3 =
      { status := 400, success := false,
        message := "Reset token has already been used" } ∧
    validateResetTokenHandler wResetDBV "tokV" 700 =
      { status := 400, success := false,
        message := "Reset token has expired" } ∧
    resetPasswordHandler wResetMsgDB "t1" "npw123" 0 =
      (wResetMsgDB,
       { status := 400, success := false,
         message := "Reset token has already been used" }) :=
  ⟨error_reason_exposure.1 wDBrot "rt1" wInfo 0 "fvW" "nidW" (by decide),
   (error_reason_exposure.2.1 wResetMsgDB "t2" 3 (by decide)).1 (by decide),
   (error_reason_exposure.2.1 wResetMsgDB "t1" 3 (by decide)).2.1
     wUsedResetRow (by decide) (by decide),
   (error_reason_exposure.2.1 wResetDBV "tokV" 700 (by decide)).2.2
     wResetRowV (by decide) (by decide) (by decide),
   error_reason_exposure.2.2 wResetMsgDB wResetMsgDB "t1" "npw123" 0
     "Reset token has already been used" (by decide) (by decide) (by decide)
     (by decide)⟩

/-- C3 counterexample: `updateMany` invalidates only rows with
`expiresAt > now` while validation rejects only `expiresAt < now`, so a
token expiring exactly at the issuance instant survives: after `"tokB"`
is successfully issued at the instant `"tokA"` expires, validating the
earlier `"tokA"` still succeeds at that instant — two unused,
validation-accepted tokens of subject `"u1"` coexist. -/
theorem resetToken_invariant_counterexample :
    (generateResetToken wResetDB1 "u1" resetTokenTTLms "tokB" "pid2").2 =
      Except.ok "tokB" ∧
    exceptIsOk (validateResetToken wResetDB2 "tokA" resetTokenTTLms).2
      = true ∧
    exceptIsOk (validateResetToken wResetDB2 "tokB" resetTokenTTLms).2
      = true := by
  exact ⟨by decide, by decide, by decide⟩

lemma wReach2 : Reach wResetDB2 resetTokenTTLms := by
  have h1 : generateResetToken dbEmpty "u1" 0 "tokA" "pid1" =
      (wResetDB1, Except.ok "tokA") := by decide
  have h2 : generateResetToken wResetDB1 "u1" resetTokenTTLms "tokB" "pid2" =
      (wResetDB2, Except.ok "tokB") := by decide
  exact Reach.genReset
    (Reach.tick (Reach.genReset Reach.init h1) (by decide)) h2

/-- C3 (amended): in every reachable store state, each subject owns at
most one unused recovery token whose expiry is strictly after the
current instant (`issueFor` marks used every unused token of the subject
with expiry strictly later than now, then creates exactly one row); and
after a successful issuance, validating any token of that subject issued
earlier fails at every strictly later instant.  At the exact boundary
instant of an old token's expiry the counterexample applies. -/
theorem resetToken_single_live_invariant :
    (∀ (db : DB) (t : Nat), Reach db t →
      ∀ uid, liveResetCount db t uid ≤ 1) ∧
    (∀ (db db' : DB) (uid tok nid s : String) (t : Nat),
      db.resetTokens.Pairwise (fun a b => a.token ≠ b.token) →
      generateResetToken db uid t tok nid = (db', Except.ok s) →
      ∀ r ∈ db.resetTokens, r.userId = uid →
      ∀ t', t < t' →
      ∃ e, (validateResetToken db' r.token t').2 = Except.error e) :=
  ⟨fun _ _ h uid => reach_live_bound h uid,
   fun _ _ _ _ _ _ _ hpw h r hr hruid t' ht =>
     genReset_old_token_fails hpw h hr hruid ht⟩

theorem resetToken_single_live_invariant_witness :
    liveResetCount wResetDB2 resetTokenTTLms "u1" ≤ 1 ∧
    (∃ e, (validateResetToken wResetDB3 wRowA.token 20).2 =
      Except.error e) :=
  ⟨resetToken_single_live_invariant.1 wResetDB2 resetTokenTTLms wReach2 "u1",
   resetToken_single_live_invariant.2 wResetDB1 wResetDB3 "u1" "tokB" "pid2"
     "tokB" 10 (by decide) (by decide) wRowA (by decide) (by decide) 20
     (by decide)⟩
